import Mathlib

/-!
Verification of the file/folder lifecycle manager of the digital-download
repository.  The definitions below are a shallow embedding of the server
code: the blob adapter in `app/files.server.js`, the route actions
(upload, delete, delete-folder, move-file, bulk-delete, bulk-move) and the
download loader from the route modules, and the metadata store whose
cascade behaviour comes from
`prisma/migrations/20251227080422_add_folders/migration.sql`
(`File_folderId_fkey ... ON DELETE CASCADE`).

Conventions of the embedding:
* timestamps are natural numbers (`Date.now()` milliseconds);
* blob bytes are `List Nat`;
* the filesystem and the database are explicit values threaded through
  each operation;
* nondeterministic I/O failure (`writeFile` / `unlink` throwing) is an
  explicit boolean oracle passed to the operation;
* a `formData.get` result is `Option String` (`none` = field absent), and
  the JavaScript falsiness check `!v` is `isBlank`;
* each route handler returns the new store, the new blob store and an
  `ActionResult`: `success` / `failure msg` mirror the `{ success: true }`
  and `{ error: msg }` objects, `thrown` is an uncaught exception
  (an `IOError` from the filesystem, or Prisma's P2025 from `update` on a
  missing row).
-/

namespace DigitalDownload

abbrev Bytes := List Nat

/-- Persisted `File` row, fields as in the Prisma migration:
`id, filename, originalName, mimeType, size, path, shop, folderId?,
createdAt, updatedAt`. -/
structure FileRecord where
  id : String
  filename : String
  originalName : String
  mimeType : String
  size : Nat
  path : String
  shop : String
  folderId : Option String
  createdAt : Nat
  updatedAt : Nat
deriving Repr, DecidableEq

/-- Persisted `Folder` row: `id, name, shop, createdAt, updatedAt`. -/
structure FolderRecord where
  id : String
  name : String
  shop : String
  createdAt : Nat
  updatedAt : Nat
deriving Repr, DecidableEq

/-- The metadata store: the `File` and `Folder` tables. -/
structure Store where
  files : List FileRecord
  folders : List FolderRecord
deriving Repr, DecidableEq

/-- The blob store: an association of storage paths to byte contents.
`writeFileB` shadows older entries, `blobLookup` reads the newest. -/
abbrev BlobStore := List (String × Bytes)

/-- `prisma.file.findFirst({ where: { id, shop } })`. -/
def findFirstFile (files : List FileRecord) (id shop : String) : Option FileRecord :=
  files.find? fun f => f.id == id && f.shop == shop

/-- `prisma.folder.findFirst({ where: { id, shop } })`. -/
def findFirstFolder (folders : List FolderRecord) (id shop : String) : Option FolderRecord :=
  folders.find? fun fo => fo.id == id && fo.shop == shop

/-- `prisma.file.delete({ where: { id } })` — removal by primary key,
no tenant filter (the callers check the tenant first). -/
def fileDeleteById (files : List FileRecord) (id : String) : List FileRecord :=
  files.filter fun f => !(f.id == id)

/-- `prisma.folder.delete({ where: { id } })` together with the database
cascade from the migration (`File_folderId_fkey ... ON DELETE CASCADE`):
the folder row disappears and so does every `File` row whose `folderId`
references it, across all tenants. -/
def folderDeleteCascade (st : Store) (folderId : String) : Store :=
  { files := st.files.filter fun f => !(f.folderId == some folderId),
    folders := st.folders.filter fun fo => !(fo.id == folderId) }

/-- A folder-reference value satisfies the foreign-key constraint
`File_folderId_fkey` of the migration: it is null, or it names an
existing `Folder` row. -/
def folderExistsFor (folders : List FolderRecord) : Option String → Bool
  | none => true
  | some fid => folders.any fun fo => fo.id == fid

/-- `prisma.file.update({ where: { id: fileId }, data: { folderId } })`.
Prisma throws when no row has the id (P2025) and — the migration's
`File_folderId_fkey` being enforced — when a non-null `folderId` names no
`Folder` row (P2003, foreign-key violation); both leave the table
unchanged, hence the `Option`.
Modelled from the spec: the Prisma schema file is not part of the sources,
so the automatic `@updatedAt` touch on update is taken from the spec's
"only its folder reference and updated timestamp change". -/
def fileUpdateFolder (files : List FileRecord) (folders : List FolderRecord)
    (fileId : String) (newFolder : Option String) (now : Nat) :
    Option (List FileRecord) :=
  if files.any (fun f => f.id == fileId) && folderExistsFor folders newFolder then
    some (files.map fun f =>
      if f.id == fileId then { f with folderId := newFolder, updatedAt := now } else f)
  else none

/-- Lookup of the bytes stored at a path (`fs.readFile` / `existsSync`). -/
def blobLookup (bs : BlobStore) (path : String) : Option Bytes :=
  (bs.find? fun e => e.1 == path).map (·.2)

/-- `existsSync(path)` over the modelled blob store. -/
def existsSyncB (bs : BlobStore) (path : String) : Bool :=
  (blobLookup bs path).isSome

/-- `fs.writeFile(path, buffer)` — create or overwrite. -/
def writeFileB (bs : BlobStore) (path : String) (buffer : Bytes) : BlobStore :=
  (path, buffer) :: bs

/-- `fs.unlink(path)`. -/
def unlinkB (bs : BlobStore) (path : String) : BlobStore :=
  bs.filter fun e => !(e.1 == path)

/-- `deleteFile(filePath)` from `app/files.server.js`: a silent no-op when
the path does not exist; otherwise `unlink`, which may throw an `IOError`
(the `unlinkOk` oracle decides). -/
def deleteFileBlob (bs : BlobStore) (path : String) (unlinkOk : Bool) :
    Except Unit BlobStore :=
  if existsSyncB bs path then
    if unlinkOk then .ok (unlinkB bs path) else .error ()
  else .ok bs

/-- The storage key generated by `saveFile` in `app/files.server.js`:
`` `${Date.now()}-${file.name}` ``. -/
def saveFileKey (nowMs : Nat) (name : String) : String :=
  toString nowMs ++ "-" ++ name

/-- The uploads directory (`join(process.cwd(), "uploads")`). -/
def uploadDir : String := "uploads"

/-- `join(UPLOAD_DIR, filename)` for the generated filename. -/
def saveFilePath (nowMs : Nat) (name : String) : String :=
  uploadDir ++ "/" ++ saveFileKey nowMs name

/-- `saveFile(file, buffer)` from `app/files.server.js`: generates the
key, writes the blob (the `writeOk` oracle decides whether `writeFile`
throws an `IOError`) and returns `{ filename, filePath }`. -/
def saveFile (bs : BlobStore) (nowMs : Nat) (name : String) (buffer : Bytes)
    (writeOk : Bool) : Except Unit (String × String × BlobStore) :=
  if writeOk then
    .ok (saveFileKey nowMs name, saveFilePath nowMs name,
      writeFileB bs (saveFilePath nowMs name) buffer)
  else .error ()

/-- The uploaded `File` object of the multipart form: `name`, `type`
(called `mime` here), `size`, and the bytes of its `arrayBuffer`. -/
structure UploadedFile where
  name : String
  mime : String
  size : Nat
  bytes : Bytes
deriving Repr, DecidableEq

/-- Result object of a route action. -/
inductive ActionResult where
  | success (file : Option FileRecord)
  | failure (msg : String)
  | thrown
deriving Repr, DecidableEq

/-- The JavaScript falsiness test `!v` on a `formData.get` result:
true for a missing field and for the empty string. -/
def isBlank : Option String → Bool
  | none => true
  | some s => s == ""

/-- `formData.get("folderId")?.toString() || null`: a missing field stays
null and the empty string becomes null. -/
def coerceFolderId : Option String → Option String
  | none => none
  | some s => if s == "" then none else some s

/-- The `upload` intent (routes in `part_002` lines 104-128 and
`part_003` lines 102-126): validate the payload, `saveFile`, then
`prisma.file.create` with the returned path; the `folderId || null`
coercion is applied once when reading the field and once more in the
`create` data.  The create is subject to the migration's
`File_folderId_fkey`: a non-null `folderId` naming no `Folder` row makes
Prisma throw (P2003) after the blob was already written (the orphaned
blob of the spec's section 7).  `now` is the millisecond clock, `newId`
the generated primary key, `writeOk` the `writeFile` outcome. -/
def uploadAction (st : Store) (bs : BlobStore) (shop : String)
    (file : Option UploadedFile) (folderField : Option String)
    (now : Nat) (newId : String) (writeOk : Bool) :
    Store × BlobStore × ActionResult :=
  match file with
  | none => (st, bs, .failure "No file provided")
  | some f =>
    let folderId := coerceFolderId folderField
    match saveFile bs now f.name f.bytes writeOk with
    | .error () => (st, bs, .thrown)
    | .ok (filename, filePath, bs') =>
      if folderExistsFor st.folders (coerceFolderId folderId) then
        let r : FileRecord :=
          { id := newId, filename := filename, originalName := f.name,
            mimeType := if f.mime == "" then "application/octet-stream" else f.mime,
            size := f.size, path := filePath, shop := shop,
            folderId := coerceFolderId folderId,
            createdAt := now, updatedAt := now }
        ({ st with files := st.files ++ [r] }, bs', .success (some r))
      else (st, bs', .thrown)

/-- The `delete` intent (`part_002` lines 130-155): tenant-scoped
`findFirst`, best-effort blob deletion whose errors are caught and
logged, then `prisma.file.delete`. -/
def deleteAction (st : Store) (bs : BlobStore) (shop : String)
    (fileIdField : Option String) (unlinkOk : Bool) :
    Store × BlobStore × ActionResult :=
  if isBlank fileIdField then (st, bs, .failure "No file ID provided")
  else
    let fileId := fileIdField.getD ""
    match findFirstFile st.files fileId shop with
    | none => (st, bs, .failure "File not found")
    | some f =>
      let bs' := match deleteFileBlob bs f.path unlinkOk with
        | .ok b => b
        | .error () => bs
      ({ st with files := fileDeleteById st.files fileId }, bs', .success none)

/-- The `delete-folder` intent (`part_002` lines 74-102): tenant-scoped
folder lookup with its related files (`include: { files: true }`, i.e.
every `File` row whose `folderId` references the folder), independent
best-effort blob deletions, then `prisma.folder.delete` whose database
cascade removes the owned `File` rows. -/
def deleteFolderAction (st : Store) (bs : BlobStore) (shop : String)
    (folderIdField : Option String) (unlinkOk : String → Bool) :
    Store × BlobStore × ActionResult :=
  if isBlank folderIdField then (st, bs, .failure "No folder ID provided")
  else
    let folderId := folderIdField.getD ""
    match findFirstFolder st.folders folderId shop with
    | none => (st, bs, .failure "Folder not found")
    | some fo =>
      let owned := st.files.filter fun f => f.folderId == some fo.id
      let bs' := owned.foldl (fun b f =>
        match deleteFileBlob b f.path (unlinkOk f.path) with
        | .ok nb => nb
        | .error () => b) bs
      (folderDeleteCascade st folderId, bs', .success none)

/-- The `move-file` intent (`part_003` lines 203-225): tenant-scoped
`findFirst`, then `prisma.file.update` by primary key setting the
(coerced) target folder. The target folder's tenant is not checked. -/
def moveFileAction (st : Store) (bs : BlobStore) (shop : String)
    (fileIdField folderField : Option String) (now : Nat) :
    Store × BlobStore × ActionResult :=
  let folderId := coerceFolderId folderField
  if isBlank fileIdField then (st, bs, .failure "No file ID provided")
  else
    let fileId := fileIdField.getD ""
    match findFirstFile st.files fileId shop with
    | none => (st, bs, .failure "File not found")
    | some _ =>
      match fileUpdateFolder st.files st.folders fileId folderId now with
      | some files' => ({ st with files := files' }, bs, .success none)
      | none => (st, bs, .thrown)

/-- JavaScript `s.startsWith(pre)`, over the character lists. -/
def strStartsWith (s pre : String) : Bool :=
  pre.data.isPrefixOf s.data

/-- Removal of the first occurrence of `pat` from a character list:
`none` when `pat` does not occur. -/
def replaceOnceAux (pat : List Char) : List Char → Option (List Char)
  | [] => none
  | c :: rest =>
    if pat.isPrefixOf (c :: rest) then some ((c :: rest).drop pat.length)
    else (replaceOnceAux pat rest).map (c :: ·)

/-- JavaScript `s.replace(pat, "")` with a string pattern: only the first
occurrence of `pat` is removed; `s` is returned unchanged when `pat` does
not occur. -/
def replaceOnce (s pat : String) : String :=
  if pat.data.isEmpty then s
  else
    match replaceOnceAux pat.data s.data with
    | none => s
    | some l => ⟨l⟩

/-- One iteration of the per-file loop of `bulk-delete` (`part_003`
lines 165-179): strip the `file-` tag, tenant-scoped `findFirst`, skip
silently when absent; when present, one `try` block wraps both the blob
deletion and the row deletion, so an `IOError` from `unlink` also skips
the metadata delete. -/
def bulkDeleteFileStep (shop : String) (unlinkOk : String → Bool)
    (acc : Store × BlobStore) (rawId : String) : Store × BlobStore :=
  let fileId := replaceOnce rawId "file-"
  match findFirstFile acc.1.files fileId shop with
  | none => acc
  | some f =>
    match deleteFileBlob acc.2 f.path (unlinkOk f.path) with
    | .error () => acc
    | .ok bs' => ({ acc.1 with files := fileDeleteById acc.1.files fileId }, bs')

/-- One iteration of the per-folder loop of `bulk-delete` (`part_003`
lines 181-198): strip the `folder-` tag, tenant-scoped `findFirst`, skip
silently when absent; when present, best-effort blob deletions then the
cascading folder delete. -/
def bulkDeleteFolderStep (shop : String) (unlinkOk : String → Bool)
    (acc : Store × BlobStore) (rawId : String) : Store × BlobStore :=
  let folderId := replaceOnce rawId "folder-"
  match findFirstFolder acc.1.folders folderId shop with
  | none => acc
  | some fo =>
    let owned := acc.1.files.filter fun f => f.folderId == some fo.id
    let bs' := owned.foldl (fun b f =>
      match deleteFileBlob b f.path (unlinkOk f.path) with
      | .ok nb => nb
      | .error () => b) acc.2
    (folderDeleteCascade acc.1 folderId, bs')

/-- The `bulk-delete` intent (`part_003` lines 155-201): partition the
tagged identifiers, process the files then the folders, and report
`{ success: true }` unconditionally. `itemIds = none` models a blank
`itemIds` field (the parsed identifier list is passed directly; the JSON
transport is not modelled). -/
def bulkDeleteAction (st : Store) (bs : BlobStore) (shop : String)
    (itemIds : Option (List String)) (unlinkOk : String → Bool) :
    Store × BlobStore × ActionResult :=
  match itemIds with
  | none => (st, bs, .failure "No items provided")
  | some ids =>
    let fileIds := ids.filter (strStartsWith · "file-")
    let folderIds := ids.filter (strStartsWith · "folder-")
    let acc1 := fileIds.foldl (bulkDeleteFileStep shop unlinkOk) (st, bs)
    let acc2 := folderIds.foldl (bulkDeleteFolderStep shop unlinkOk) acc1
    (acc2.1, acc2.2, .success none)

/-- The per-identifier loop of `bulk-move` (`part_003` lines 237-243):
`prisma.file.update` by primary key with no tenant filter; a missing id
(P2025) or a target folder naming no `Folder` row (P2003) makes Prisma
throw, aborting the loop with earlier updates kept. -/
def bulkMoveLoop (files : List FileRecord) (folders : List FolderRecord)
    (ids : List String) (folderId : Option String) (now : Nat) :
    List FileRecord × Bool :=
  match ids with
  | [] => (files, false)
  | rawId :: rest =>
    match fileUpdateFolder files folders (replaceOnce rawId "file-") folderId now with
    | none => (files, true)
    | some files' => bulkMoveLoop files' folders rest folderId now

set_option linter.unusedVariables false in
/-- The `bulk-move` intent (`part_003` lines 227-246). The resolved
`shop` is never consulted by the handler body — the updates are by
primary key only — which the unused parameter makes visible. -/
def bulkMoveAction (st : Store) (bs : BlobStore) (shop : String)
    (fileIds : Option (List String)) (folderField : Option String)
    (now : Nat) : Store × BlobStore × ActionResult :=
  let folderId := coerceFolderId folderField
  match fileIds with
  | none => (st, bs, .failure "No files provided")
  | some ids =>
    let out := bulkMoveLoop st.files st.folders ids folderId now
    ({ st with files := out.1 }, bs, if out.2 then .thrown else .success none)

/-- Result of the download loader: a thrown 404 `Response` or a file
`Response` with body and the three headers. -/
inductive LoaderResult where
  | httpNotFound (msg : String)
  | fileResponse (body : Bytes)
      (contentType contentDisposition contentLength : String)
deriving Repr, DecidableEq

/-- The download loader (`part_003` lines 1679-1704): tenant-scoped
`findFirst`, 404 when absent or foreign, 404 when the blob is missing
from disk, otherwise the blob bytes with `Content-Type` = stored MIME
type, `Content-Disposition` carrying the original name and
`Content-Length` = stored size. -/
def downloadLoader (st : Store) (bs : BlobStore) (shop fileId : String) :
    LoaderResult :=
  match findFirstFile st.files fileId shop with
  | none => .httpNotFound "File not found"
  | some f =>
    if existsSyncB bs f.path then
      .fileResponse ((blobLookup bs f.path).getD [])
        f.mimeType
        ("attachment; filename=\"" ++ f.originalName ++ "\"")
        (toString f.size)
    else .httpNotFound "File not found on disk"

/-- A folder reference is compatible with a tenant: it is null, or every
folder it names belongs to that tenant. -/
def refOkB (folders : List FolderRecord) (shop : String) : Option String → Bool
  | none => true
  | some fid => folders.all fun fo => !(fo.id == fid) || fo.shop == shop

/-- One file record satisfies the same-tenant folder-reference rule:
whenever its `folderId` names a folder of the store, that folder belongs
to the file's tenant. -/
def fileFolderOkB (folders : List FolderRecord) (f : FileRecord) : Bool :=
  refOkB folders f.shop f.folderId

/-- The spec's §3 invariant: every `File` with a non-null folder
reference refers to a `Folder` of the same tenant. -/
def folderTenantInvariantB (st : Store) : Bool :=
  st.files.all (fileFolderOkB st.folders)

/-- A requested target folder reference is a folder of the requesting
tenant (or null). -/
def folderOkForB (st : Store) (shop : String) (v : Option String) : Bool :=
  refOkB st.folders shop v

/-- One invocation of `saveFile`, as an event: the invocation counter
`seq` distinguishes distinct writes (e.g. two concurrent uploads), and
`nowMs` is the `Date.now()` value that invocation observes.  Two
concurrent invocations may observe the same millisecond. -/
structure BlobWrite where
  seq : Nat
  nowMs : Nat
  originalName : String
deriving Repr, DecidableEq

/-- The storage key a write event receives. -/
def blobWriteKey (w : BlobWrite) : String :=
  saveFileKey w.nowMs w.originalName

/-- Numeric value of a decimal digit character. -/
def decChar (c : Char) : Nat := c.toNat - 48

/-- Decimal value of a digit string, with accumulator. -/
def decValAux (a : Nat) (cs : List Char) : Nat :=
  cs.foldl (fun x c => 10 * x + decChar c) a

/-! Auxiliary facts about `Nat.repr`, used to settle the storage-key
collision claim: the decimal representation contains no `'-'` character
and is injective. -/

theorem toDigitsCore_append (fuel : Nat) : ∀ (n : Nat) (ds : List Char),
    Nat.toDigitsCore 10 fuel n ds = Nat.toDigitsCore 10 fuel n [] ++ ds := by
  induction fuel with
  | zero => intro n ds; simp [Nat.toDigitsCore]
  | succ fuel ih =>
    intro n ds
    simp only [Nat.toDigitsCore]
    by_cases h : n / 10 = 0
    · simp [h]
    · simp only [h, if_neg, ite_false]
      rw [ih (n / 10) (Nat.digitChar (n % 10) :: ds),
        ih (n / 10) [Nat.digitChar (n % 10)]]
      simp

theorem decChar_digitChar : ∀ d, d < 10 → decChar (Nat.digitChar d) = d := by decide

theorem decValAux_toDigitsCore (fuel : Nat) : ∀ (n a : Nat), n < fuel →
    decValAux a (Nat.toDigitsCore 10 fuel n []) =
      a * 10 ^ (Nat.toDigitsCore 10 fuel n []).length + n := by
  induction fuel with
  | zero => intro n a h; omega
  | succ fuel ih =>
    intro n a h
    simp only [Nat.toDigitsCore]
    by_cases h0 : n / 10 = 0
    · have hn : n < 10 := by omega
      have hmod : n % 10 = n := Nat.mod_eq_of_lt hn
      have hdc : decChar (Nat.digitChar n) = n := decChar_digitChar n hn
      simp only [h0, ite_true, hmod]
      simp [decValAux, hdc]
      omega
    · have hdiv : n / 10 < n := Nat.div_lt_self (by omega) (by omega)
      have hfuel : n / 10 < fuel := by omega
      simp only [h0, ite_false, if_neg]
      rw [toDigitsCore_append fuel (n / 10) [Nat.digitChar (n % 10)]]
      rw [decValAux, List.foldl_append]
      have hpre := ih (n / 10) a hfuel
      rw [decValAux] at hpre
      rw [hpre]
      simp only [List.foldl, List.length_append, List.length_cons,
        List.length_nil]
      rw [decChar_digitChar (n % 10) (by omega)]
      rw [pow_succ, ← mul_assoc]
      generalize a * 10 ^ (Nat.toDigitsCore 10 fuel (n / 10) []).length = P
      omega

theorem decValAux_repr (n : Nat) : decValAux 0 (Nat.repr n).data = n := by
  have h := decValAux_toDigitsCore (n + 1) n 0 (Nat.lt_succ_self n)
  simpa [Nat.repr, Nat.toDigits, List.asString] using h

theorem repr_data_inj {m n : Nat}
    (h : (Nat.repr m).data = (Nat.repr n).data) : m = n := by
  have hm := decValAux_repr m
  rw [h, decValAux_repr n] at hm
  exact hm.symm

theorem mem_toDigitsCore (fuel : Nat) : ∀ (n : Nat) (ds : List Char)
    (c : Char), c ∈ Nat.toDigitsCore 10 fuel n ds →
    c ∈ ds ∨ ∃ d, d < 10 ∧ c = Nat.digitChar d := by
  induction fuel with
  | zero => intro n ds c hc; exact Or.inl hc
  | succ fuel ih =>
    intro n ds c hc
    simp only [Nat.toDigitsCore] at hc
    by_cases h : n / 10 = 0
    · simp only [h, ite_true, if_pos, List.mem_cons] at hc
      rcases hc with rfl | hc
      · exact Or.inr ⟨n % 10, Nat.mod_lt _ (by omega), rfl⟩
      · exact Or.inl hc
    · simp only [h, ite_false, if_neg] at hc
      rcases ih (n / 10) (Nat.digitChar (n % 10) :: ds) c hc with hd | hd
      · rcases List.mem_cons.mp hd with rfl | hd
        · exact Or.inr ⟨n % 10, Nat.mod_lt _ (by omega), rfl⟩
        · exact Or.inl hd
      · exact Or.inr hd

theorem dash_not_mem_repr (n : Nat) : '-' ∉ (Nat.repr n).data := by
  intro hmem
  have hx : ('-' : Char) ∈ Nat.toDigitsCore 10 (n + 1) n [] := by
    simpa [Nat.repr, Nat.toDigits, List.asString] using hmem
  rcases mem_toDigitsCore (n + 1) n [] '-' hx with h | ⟨d, hd, hc⟩
  · simp at h
  · revert hc
    have : ∀ d, d < 10 → Nat.digitChar d ≠ '-' := by decide
    exact fun hc => this d hd hc.symm

theorem sep_split (c : Char) : ∀ (a b x y : List Char), c ∉ a → c ∉ b →
    a ++ c :: x = b ++ c :: y → a = b ∧ x = y := by
  intro a
  induction a with
  | nil =>
    intro b x y _ hb h
    cases b with
    | nil => simpa using h
    | cons b0 bs =>
      simp only [List.nil_append, List.cons_append, List.cons.injEq] at h
      exact absurd (h.1 ▸ List.mem_cons_self b0 bs) (by simpa [h.1] using hb)
  | cons a0 as ih =>
    intro b x y ha hb h
    cases b with
    | nil =>
      simp only [List.cons_append, List.nil_append, List.cons.injEq] at h
      exact absurd (h.1 ▸ List.mem_cons_self a0 as) (by simpa [h.1] using ha)
    | cons b0 bs =>
      simp only [List.cons_append, List.cons.injEq] at h
      obtain ⟨rfl, h2⟩ := h
      have := ih bs x y (fun hc => ha (List.mem_cons_of_mem _ hc))
        (fun hc => hb (List.mem_cons_of_mem _ hc)) h2
      exact ⟨by rw [this.1], this.2⟩

/-- C3 (counterexample): the claim "for any two blob writes the generated
storage keys are never equal" is false.  Two distinct write invocations —
e.g. two concurrent uploads — that observe the same `Date.now()`
millisecond and carry the same original name `invoice.pdf` receive the
very same storage key, because `saveFile` derives the key purely from the
millisecond timestamp and the name. -/
theorem same_millisecond_same_name_writes_collide :
    (⟨0, 1700000000000, "invoice.pdf"⟩ : BlobWrite) ≠
      ⟨1, 1700000000000, "invoice.pdf"⟩ ∧
    blobWriteKey ⟨0, 1700000000000, "invoice.pdf"⟩ =
      blobWriteKey ⟨1, 1700000000000, "invoice.pdf"⟩ :=
  ⟨by decide, rfl⟩

/-- C3 (amended): `saveFile`'s storage key determines and is determined
by the pair (millisecond timestamp, original name): two blob writes
receive equal keys exactly when they observe the same `Date.now()`
millisecond and carry the same original name.  Hence keys never collide
across writes that differ in timestamp or in name, but concurrent
same-name uploads within one millisecond do collide. -/
theorem saveFileKey_eq_iff (t1 t2 : Nat) (n1 n2 : String) :
    saveFileKey t1 n1 = saveFileKey t2 n2 ↔ t1 = t2 ∧ n1 = n2 := by
  constructor
  · intro h
    have hd : (Nat.repr t1).data ++ '-' :: n1.data =
        (Nat.repr t2).data ++ '-' :: n2.data := by
      have hc := congrArg String.data h
      simpa [saveFileKey] using hc
    obtain ⟨hr, hn⟩ := sep_split '-' _ _ _ _ (dash_not_mem_repr t1)
      (dash_not_mem_repr t2) hd
    exact ⟨repr_data_inj hr, String.ext hn⟩
  · rintro ⟨rfl, rfl⟩
    rfl

/-- C1 (code bug): the `bulk-move` handler performs `prisma.file.update`
keyed by file id only, with no tenant filter, so a request issued under
tenant `shop-b` naming a file owned by tenant `shop-a` does not return
NotFound — it modifies `shop-a`'s record (its `folderId` is rewritten to
`shop-b`'s target folder) and reports success.  Evaluated here at the
failing input: `shop-a` owns the only file `f1`; `shop-b` owns the
folder `folder-b-1` (so the `File_folderId_fkey` constraint is
satisfied) and issues `bulk-move` of `file-f1` into it. -/
theorem bulk_move_modifies_foreign_tenant_record :
    (bulkMoveAction
        ⟨[⟨"f1", "100-a.pdf", "a.pdf", "application/pdf", 3,
            "uploads/100-a.pdf", "shop-a", none, 100, 100⟩],
          [⟨"folder-b-1", "B stuff", "shop-b", 0, 0⟩]⟩
        [] "shop-b" (some ["file-f1"]) (some "folder-b-1") 200).2.2 =
      .success none ∧
    (bulkMoveAction
        ⟨[⟨"f1", "100-a.pdf", "a.pdf", "application/pdf", 3,
            "uploads/100-a.pdf", "shop-a", none, 100, 100⟩],
          [⟨"folder-b-1", "B stuff", "shop-b", 0, 0⟩]⟩
        [] "shop-b" (some ["file-f1"]) (some "folder-b-1") 200).1.files =
      [⟨"f1", "100-a.pdf", "a.pdf", "application/pdf", 3,
          "uploads/100-a.pdf", "shop-a", some "folder-b-1", 100, 200⟩] := by
  decide

/-! Shared helper lemmas about the metadata-store primitives. -/

theorem findFirstFile_spec {files : List FileRecord} {id shop : String}
    {f : FileRecord} (h : findFirstFile files id shop = some f) :
    f ∈ files ∧ f.id = id ∧ f.shop = shop := by
  have hm := List.mem_of_find?_eq_some h
  have hp := List.find?_some h
  simp only [Bool.and_eq_true, beq_iff_eq] at hp
  exact ⟨hm, hp.1, hp.2⟩

theorem findFirstFolder_spec {folders : List FolderRecord} {id shop : String}
    {fo : FolderRecord} (h : findFirstFolder folders id shop = some fo) :
    fo ∈ folders ∧ fo.id = id ∧ fo.shop = shop := by
  have hm := List.mem_of_find?_eq_some h
  have hp := List.find?_some h
  simp only [Bool.and_eq_true, beq_iff_eq] at hp
  exact ⟨hm, hp.1, hp.2⟩

theorem fileUpdateFolder_of_found {files : List FileRecord} {id shop : String}
    {f : FileRecord} (folders : List FolderRecord) (v : Option String)
    (now : Nat) (h : findFirstFile files id shop = some f)
    (hfk : folderExistsFor folders v = true) :
    fileUpdateFolder files folders id v now =
      some (files.map fun g =>
        if g.id == id then { g with folderId := v, updatedAt := now } else g) := by
  obtain ⟨hm, hid, -⟩ := findFirstFile_spec h
  have hany : files.any (fun g => g.id == id) = true := by
    rw [List.any_eq_true]
    exact ⟨f, hm, by simp [hid]⟩
  simp [fileUpdateFolder, hany, hfk]

theorem fileUpdateFolder_some {files : List FileRecord}
    {folders : List FolderRecord} {fileId : String} {v : Option String}
    {now : Nat} {files' : List FileRecord}
    (h : fileUpdateFolder files folders fileId v now = some files') :
    files' = files.map fun g =>
      if g.id == fileId then { g with folderId := v, updatedAt := now }
      else g := by
  rw [fileUpdateFolder] at h
  split at h
  · exact (Option.some.injEq _ _ ▸ h).symm
  · exact absurd h (by simp)

theorem coerce_idem (v : Option String) :
    coerceFolderId (coerceFolderId v) = coerceFolderId v := by
  cases v with
  | none => rfl
  | some s =>
    by_cases h : s = ""
    · subst h; rfl
    · have hb : (s == "") = false := by simp [h]
      simp [coerceFolderId, hb]

/-- C2 (counterexample): upload does not validate that a supplied folder
reference belongs to the uploader's tenant.  Starting from a store whose
only folder `fA` belongs to `shop-a` (the same-tenant invariant holds),
an upload by `shop-b` naming `folderId = fA` succeeds and creates a
`shop-b` file record referencing `shop-a`'s folder: the invariant is
broken. -/
theorem upload_into_foreign_folder_breaks_invariant :
    folderTenantInvariantB ⟨[], [⟨"fA", "Invoices", "shop-a", 0, 0⟩]⟩ = true ∧
    (uploadAction ⟨[], [⟨"fA", "Invoices", "shop-a", 0, 0⟩]⟩ [] "shop-b"
        (some ⟨"doc.pdf", "application/pdf", 3, [1, 2, 3]⟩) (some "fA")
        5 "x1" true).2.2 =
      .success (some ⟨"x1", "5-doc.pdf", "doc.pdf", "application/pdf", 3,
        "uploads/5-doc.pdf", "shop-b", some "fA", 5, 5⟩) ∧
    folderTenantInvariantB
      (uploadAction ⟨[], [⟨"fA", "Invoices", "shop-a", 0, 0⟩]⟩ [] "shop-b"
        (some ⟨"doc.pdf", "application/pdf", 3, [1, 2, 3]⟩) (some "fA")
        5 "x1" true).1 = false := by
  decide

theorem bulkMoveLoop_all_ok (folders : List FolderRecord) (shop : String)
    (v : Option String) (now : Nat) (hok : refOkB folders shop v = true) :
    ∀ (ids : List String) (files : List FileRecord),
      files.all (fileFolderOkB folders) = true →
      (∀ g ∈ files, (∃ i ∈ ids, replaceOnce i "file-" = g.id) → g.shop = shop) →
      ((bulkMoveLoop files folders ids v now).1.all (fileFolderOkB folders)) =
        true := by
  intro ids
  induction ids with
  | nil => intro files hall _; exact hall
  | cons i rest ih =>
    intro files hall hshop
    simp only [bulkMoveLoop]
    cases hupd : fileUpdateFolder files folders (replaceOnce i "file-") v now with
    | none => exact hall
    | some files' =>
      have hfiles' := fileUpdateFolder_some hupd
      apply ih files'
      · subst hfiles'
        rw [List.all_eq_true] at hall ⊢
        intro g' hg'
        obtain ⟨g, hg, rfl⟩ := List.mem_map.mp hg'
        by_cases hid : g.id == replaceOnce i "file-"
        · have hshopg : g.shop = shop :=
            hshop g hg ⟨i, List.mem_cons_self i rest, (beq_iff_eq.mp hid).symm⟩
          simp only [hid, if_pos, ite_true]
          simp [fileFolderOkB, hshopg, hok]
        · simp only [hid]
          simp only [Bool.false_eq_true, ite_false]
          exact hall g hg
      · subst hfiles'
        intro g' hg' hex
        obtain ⟨g, hg, rfl⟩ := List.mem_map.mp hg'
        obtain ⟨i', hi', hstrip⟩ := hex
        have hid' : (if g.id == replaceOnce i "file-" then
            { g with folderId := v, updatedAt := now } else g).id = g.id := by
          split <;> rfl
        have hshg : (if g.id == replaceOnce i "file-" then
            { g with folderId := v, updatedAt := now } else g).shop = g.shop := by
          split <;> rfl
        rw [hshg]
        exact hshop g hg ⟨i', List.mem_cons_of_mem i hi', hid' ▸ hstrip⟩

/-- C2 (amended): the operations that set a folder reference store
exactly the supplied (null-coerced) folder identifier without validating
the target folder's tenant, so the same-tenant invariant is preserved
only under side conditions the code does not check: the supplied target
folder (if any) must belong to the requesting tenant
(`folderOkForB`), and — because `move-file` and `bulk-move` update by
file id — the addressed file ids must belong to the requesting tenant.
Under those assumptions upload, move-file and bulk-move all preserve the
invariant. -/
theorem tenant_folder_invariant_preservation
    (st : Store) (shop : String)
    (hinv : folderTenantInvariantB st = true) :
    (∀ bs file folderField now newId writeOk,
      folderOkForB st shop (coerceFolderId folderField) = true →
      folderTenantInvariantB
        (uploadAction st bs shop file folderField now newId writeOk).1 = true) ∧
    (∀ bs fileIdField folderField now,
      folderOkForB st shop (coerceFolderId folderField) = true →
      (∀ g ∈ st.files, g.id = fileIdField.getD "" → g.shop = shop) →
      folderTenantInvariantB
        (moveFileAction st bs shop fileIdField folderField now).1 = true) ∧
    (∀ bs ids folderField now,
      folderOkForB st shop (coerceFolderId folderField) = true →
      (∀ g ∈ st.files, (∃ i ∈ ids, replaceOnce i "file-" = g.id) →
        g.shop = shop) →
      folderTenantInvariantB
        (bulkMoveAction st bs shop (some ids) folderField now).1 = true) := by
  refine ⟨?_, ?_, ?_⟩
  · intro bs file folderField now newId writeOk hok
    cases file with
    | none => exact hinv
    | some f =>
      cases writeOk with
      | false => exact hinv
      | true =>
        simp only [uploadAction, saveFile, ite_true]
        by_cases hfk : folderExistsFor st.folders
            (coerceFolderId (coerceFolderId folderField)) = true
        · rw [if_pos hfk]
          rw [folderTenantInvariantB]
          simp only [List.all_append, Bool.and_eq_true]
          refine ⟨hinv, ?_⟩
          simp only [List.all_cons, List.all_nil, Bool.and_true]
          rw [fileFolderOkB]
          rw [coerce_idem]
          exact hok
        · rw [if_neg hfk]
          exact hinv
  · intro bs fileIdField folderField now hok hshop
    simp only [moveFileAction]
    by_cases hblank : isBlank fileIdField = true
    · simp only [hblank, ite_true]
      exact hinv
    · simp only [hblank]
      simp only [Bool.false_eq_true, ite_false]
      cases hfind : findFirstFile st.files (fileIdField.getD "") shop with
      | none => exact hinv
      | some f0 =>
        cases hupd : fileUpdateFolder st.files st.folders
            (fileIdField.getD "") (coerceFolderId folderField) now with
        | none => exact hinv
        | some files' =>
          have hfiles' := fileUpdateFolder_some hupd
          subst hfiles'
          rw [folderTenantInvariantB]
          rw [List.all_eq_true]
          intro g' hg'
          obtain ⟨g, hg, rfl⟩ := List.mem_map.mp hg'
          by_cases hid : g.id == fileIdField.getD ""
          · have hshopg : g.shop = shop := hshop g hg (beq_iff_eq.mp hid)
            simp only [hid, ite_true]
            simp [fileFolderOkB, hshopg]
            exact hok
          · simp only [hid, Bool.false_eq_true, ite_false]
            exact (List.all_eq_true.mp hinv) g hg
  · intro bs ids folderField now hok hshop
    simp only [bulkMoveAction]
    rw [folderTenantInvariantB]
    exact bulkMoveLoop_all_ok st.folders shop (coerceFolderId folderField)
      now hok ids st.files hinv hshop

/-- C2 (witness for the amended theorem): a concrete application — with
one folder and one file both of `shop-a`, moving the file into that
folder preserves the invariant. -/
theorem tenant_folder_invariant_preservation_witness :
    folderTenantInvariantB
      ⟨[⟨"f1", "k", "n", "t", 1, "p", "shop-a", none, 1, 1⟩],
        [⟨"fA", "Invoices", "shop-a", 0, 0⟩]⟩ = true ∧
    folderOkForB
      ⟨[⟨"f1", "k", "n", "t", 1, "p", "shop-a", none, 1, 1⟩],
        [⟨"fA", "Invoices", "shop-a", 0, 0⟩]⟩ "shop-a"
      (coerceFolderId (some "fA")) = true ∧
    folderTenantInvariantB
      (moveFileAction
        ⟨[⟨"f1", "k", "n", "t", 1, "p", "shop-a", none, 1, 1⟩],
          [⟨"fA", "Invoices", "shop-a", 0, 0⟩]⟩
        [] "shop-a" (some "f1") (some "fA") 9).1 = true :=
  ⟨by decide, by decide,
    (tenant_folder_invariant_preservation
      ⟨[⟨"f1", "k", "n", "t", 1, "p", "shop-a", none, 1, 1⟩],
        [⟨"fA", "Invoices", "shop-a", 0, 0⟩]⟩ "shop-a" (by decide)).2.1
      [] (some "f1") (some "fA") 9 (by decide) (by decide)⟩

/-- C4: upload is blob-first.  When `writeFile` fails with an `IOError`
(`writeOk = false`) the action aborts with the exception and neither the
metadata store nor the blob store changes — in particular no `File`
record is created; and whenever the action reports a created record, the
blob write succeeded and the record's path holds the uploaded bytes in
the resulting blob store. -/
theorem upload_blob_first
    (st : Store) (bs : BlobStore) (shop : String)
    (file : Option UploadedFile) (folderField : Option String)
    (now : Nat) (newId : String) :
    ((uploadAction st bs shop file folderField now newId false).1 = st ∧
      (uploadAction st bs shop file folderField now newId false).2.1 = bs ∧
      ∀ r, (uploadAction st bs shop file folderField now newId false).2.2 ≠
        .success r) ∧
    (∀ writeOk r,
      (uploadAction st bs shop file folderField now newId writeOk).2.2 =
        .success (some r) →
      writeOk = true ∧ ∃ uf, file = some uf ∧
        r.path = saveFilePath now uf.name ∧
        blobLookup
          (uploadAction st bs shop file folderField now newId writeOk).2.1
          r.path = some uf.bytes ∧
        r ∈ (uploadAction st bs shop file folderField now newId writeOk).1.files) := by
  constructor
  · cases file <;> simp [uploadAction, saveFile]
  · intro writeOk r h
    cases file with
    | none => simp [uploadAction] at h
    | some uf =>
      cases writeOk with
      | false => simp [uploadAction, saveFile] at h
      | true =>
        simp only [uploadAction, saveFile, ite_true] at h
        by_cases hfk : folderExistsFor st.folders
            (coerceFolderId (coerceFolderId folderField)) = true
        · rw [if_pos hfk] at h
          simp only [ActionResult.success.injEq, Option.some.injEq] at h
          refine ⟨rfl, uf, rfl, ?_⟩
          subst h
          refine ⟨rfl, ?_, ?_⟩
          · simp only [uploadAction, saveFile, ite_true]
            rw [if_pos hfk]
            simp [blobLookup, writeFileB]
          · simp only [uploadAction, saveFile, ite_true]
            rw [if_pos hfk]
            simp
        · rw [if_neg hfk] at h
          simp at h

/-- C4 (witness): a concrete successful upload, to which the second part
of `upload_blob_first` applies. -/
theorem upload_blob_first_witness :
    (uploadAction ⟨[], []⟩ [] "shop-1" (some ⟨"a.txt", "", 2, [7, 8]⟩)
        none 50 "id1" true).2.2 =
      ActionResult.success (some ⟨"id1", "50-a.txt", "a.txt",
        "application/octet-stream", 2, "uploads/50-a.txt", "shop-1",
        none, 50, 50⟩) ∧
    (true = true ∧ ∃ uf,
      (some (⟨"a.txt", "", 2, [7, 8]⟩ : UploadedFile)) = some uf ∧
      FileRecord.path ⟨"id1", "50-a.txt", "a.txt",
        "application/octet-stream", 2, "uploads/50-a.txt", "shop-1",
        none, 50, 50⟩ = saveFilePath 50 uf.name ∧
      blobLookup (uploadAction ⟨[], []⟩ [] "shop-1"
          (some ⟨"a.txt", "", 2, [7, 8]⟩) none 50 "id1" true).2.1
        (FileRecord.path ⟨"id1", "50-a.txt", "a.txt",
          "application/octet-stream", 2, "uploads/50-a.txt", "shop-1",
          none, 50, 50⟩) = some uf.bytes ∧
      (⟨"id1", "50-a.txt", "a.txt", "application/octet-stream", 2,
        "uploads/50-a.txt", "shop-1", none, 50, 50⟩ : FileRecord) ∈
        (uploadAction ⟨[], []⟩ [] "shop-1"
          (some ⟨"a.txt", "", 2, [7, 8]⟩) none 50 "id1" true).1.files) :=
  ⟨by decide,
    (upload_blob_first ⟨[], []⟩ [] "shop-1" (some ⟨"a.txt", "", 2, [7, 8]⟩)
      none 50 "id1").2 true _ (by decide)⟩

/-- C5: the download response contract.  For a file record of the
requesting tenant whose blob is on disk, the response body is exactly the
stored blob bytes, the content type is the stored MIME type, the
content-disposition hint carries the original filename and the
content-length is the stored size; a missing or foreign metadata record
(the tenant-scoped lookup fails) or a blob missing from disk yields a
404 not-found signal. -/
theorem download_contract (st : Store) (bs : BlobStore) (shop fileId : String) :
    (∀ f bytes, findFirstFile st.files fileId shop = some f →
      blobLookup bs f.path = some bytes →
      downloadLoader st bs shop fileId =
        .fileResponse bytes f.mimeType
          ("attachment; filename=\"" ++ f.originalName ++ "\"")
          (toString f.size)) ∧
    (findFirstFile st.files fileId shop = none →
      downloadLoader st bs shop fileId = .httpNotFound "File not found") ∧
    (∀ f, findFirstFile st.files fileId shop = some f →
      blobLookup bs f.path = none →
      downloadLoader st bs shop fileId =
        .httpNotFound "File not found on disk") := by
  refine ⟨?_, ?_, ?_⟩
  · intro f bytes hfind hblob
    simp [downloadLoader, hfind, existsSyncB, hblob]
  · intro hfind
    simp [downloadLoader, hfind]
  · intro f hfind hblob
    simp [downloadLoader, hfind, existsSyncB, hblob]

/-- C5 (witness): a concrete store with one `shop-1` file whose blob is
present; the first part of `download_contract` applies and produces the
exact response. -/
theorem download_contract_witness :
    findFirstFile [⟨"f1", "50-a.txt", "a.txt", "text/plain", 2,
        "uploads/50-a.txt", "shop-1", none, 50, 50⟩] "f1" "shop-1" =
      some ⟨"f1", "50-a.txt", "a.txt", "text/plain", 2,
        "uploads/50-a.txt", "shop-1", none, 50, 50⟩ ∧
    blobLookup [("uploads/50-a.txt", [7, 8])] "uploads/50-a.txt" =
      some [7, 8] ∧
    downloadLoader
        ⟨[⟨"f1", "50-a.txt", "a.txt", "text/plain", 2,
          "uploads/50-a.txt", "shop-1", none, 50, 50⟩], []⟩
        [("uploads/50-a.txt", [7, 8])] "shop-1" "f1" =
      .fileResponse [7, 8] "text/plain"
        "attachment; filename=\"a.txt\"" "2" :=
  ⟨by decide, by decide,
    (download_contract
      ⟨[⟨"f1", "50-a.txt", "a.txt", "text/plain", 2,
        "uploads/50-a.txt", "shop-1", none, 50, 50⟩], []⟩
      [("uploads/50-a.txt", [7, 8])] "shop-1" "f1").1
      ⟨"f1", "50-a.txt", "a.txt", "text/plain", 2,
        "uploads/50-a.txt", "shop-1", none, 50, 50⟩
      [7, 8] (by decide) (by decide)⟩

/-- C7: file deletion is best-effort on the blob.  For a file of the
requesting tenant, the `delete` intent removes the metadata record and
reports success for every blob-deletion outcome — the blob store `bs`
and the unlink oracle are universally quantified, covering the blob
already missing from disk and `unlink` throwing an `IOError` (which the
handler catches and only logs). -/
theorem delete_best_effort
    (st : Store) (bs : BlobStore) (shop fileId : String)
    (f : FileRecord) (unlinkOk : Bool)
    (hid : fileId ≠ "")
    (hfind : findFirstFile st.files fileId shop = some f) :
    (deleteAction st bs shop (some fileId) unlinkOk).2.2 = .success none ∧
    (deleteAction st bs shop (some fileId) unlinkOk).1.files =
      fileDeleteById st.files fileId ∧
    ∀ g ∈ (deleteAction st bs shop (some fileId) unlinkOk).1.files,
      g.id ≠ fileId := by
  have hblank : isBlank (some fileId) = false := by
    simp [isBlank, hid]
  refine ⟨?_, ?_, ?_⟩
  · simp [deleteAction, hblank, hfind]
  · simp [deleteAction, hblank, hfind]
  · intro g hg
    simp only [deleteAction, hblank, Bool.false_eq_true, ite_false,
      Option.getD_some, hfind] at hg
    have := List.of_mem_filter hg
    simpa using this

/-- C7 (witness): concrete application where the blob is present but
`unlink` throws (`unlinkOk = false`): the record is still deleted and
the action still reports success. -/
theorem delete_best_effort_witness :
    ("f1" : String) ≠ "" ∧
    findFirstFile [⟨"f1", "50-a.txt", "a.txt", "text/plain", 2,
        "uploads/50-a.txt", "shop-1", none, 50, 50⟩] "f1" "shop-1" =
      some ⟨"f1", "50-a.txt", "a.txt", "text/plain", 2,
        "uploads/50-a.txt", "shop-1", none, 50, 50⟩ ∧
    (deleteAction
        ⟨[⟨"f1", "50-a.txt", "a.txt", "text/plain", 2,
          "uploads/50-a.txt", "shop-1", none, 50, 50⟩], []⟩
        [("uploads/50-a.txt", [7, 8])] "shop-1" (some "f1") false).2.2 =
      .success none ∧
    (deleteAction
        ⟨[⟨"f1", "50-a.txt", "a.txt", "text/plain", 2,
          "uploads/50-a.txt", "shop-1", none, 50, 50⟩], []⟩
        [("uploads/50-a.txt", [7, 8])] "shop-1" (some "f1") false).1.files =
      fileDeleteById [⟨"f1", "50-a.txt", "a.txt", "text/plain", 2,
        "uploads/50-a.txt", "shop-1", none, 50, 50⟩] "f1" :=
  ⟨by decide, by decide,
    (delete_best_effort
      ⟨[⟨"f1", "50-a.txt", "a.txt", "text/plain", 2,
        "uploads/50-a.txt", "shop-1", none, 50, 50⟩], []⟩
      [("uploads/50-a.txt", [7, 8])] "shop-1" "f1"
      ⟨"f1", "50-a.txt", "a.txt", "text/plain", 2,
        "uploads/50-a.txt", "shop-1", none, 50, 50⟩ false
      (by decide) (by decide)).1,
    (delete_best_effort
      ⟨[⟨"f1", "50-a.txt", "a.txt", "text/plain", 2,
        "uploads/50-a.txt", "shop-1", none, 50, 50⟩], []⟩
      [("uploads/50-a.txt", [7, 8])] "shop-1" "f1"
      ⟨"f1", "50-a.txt", "a.txt", "text/plain", 2,
        "uploads/50-a.txt", "shop-1", none, 50, 50⟩ false
      (by decide) (by decide)).2.1⟩

/-- C10: for upload, move-file and bulk-move, a `folderId` form field
equal to the empty string is treated identically to an absent field (the
`?.toString() || null` coercion maps both to null): the three actions
produce literally the same outcome, and a record created by an upload
with an empty-string folder field has a null folder reference. -/
theorem empty_folder_field_is_root
    (st : Store) (bs : BlobStore) (shop : String) (file : Option UploadedFile)
    (now : Nat) (newId : String) (writeOk : Bool)
    (fileIdField : Option String) (ids : Option (List String)) :
    uploadAction st bs shop file (some "") now newId writeOk =
      uploadAction st bs shop file none now newId writeOk ∧
    moveFileAction st bs shop fileIdField (some "") now =
      moveFileAction st bs shop fileIdField none now ∧
    bulkMoveAction st bs shop ids (some "") now =
      bulkMoveAction st bs shop ids none now ∧
    (∀ r, (uploadAction st bs shop file (some "") now newId writeOk).2.2 =
        .success (some r) → r.folderId = none) := by
  have hc : coerceFolderId (some "") = coerceFolderId none := by decide
  refine ⟨?_, ?_, ?_, ?_⟩
  · cases file <;> simp [uploadAction, coerceFolderId]
  · rw [moveFileAction, moveFileAction, hc]
  · cases ids <;> simp [bulkMoveAction, coerceFolderId]
  · intro r h
    cases file with
    | none => simp [uploadAction] at h
    | some uf =>
      cases writeOk with
      | false => simp [uploadAction, saveFile] at h
      | true =>
        simp only [uploadAction, saveFile, ite_true] at h
        by_cases hfk : folderExistsFor st.folders
            (coerceFolderId (coerceFolderId (some ""))) = true
        · rw [if_pos hfk] at h
          simp only [ActionResult.success.injEq, Option.some.injEq] at h
          subst h
          show coerceFolderId (coerceFolderId (some "")) = none
          decide
        · rw [if_neg hfk] at h
          simp at h

/-- C10 (witness): the last part of `empty_folder_field_is_root` applied
to a concrete upload whose `folderId` field is the empty string. -/
theorem empty_folder_field_is_root_witness :
    (uploadAction ⟨[], []⟩ [] "shop-1" (some ⟨"a.txt", "", 2, [7, 8]⟩)
        (some "") 50 "id1" true).2.2 =
      ActionResult.success (some ⟨"id1", "50-a.txt", "a.txt",
        "application/octet-stream", 2, "uploads/50-a.txt", "shop-1",
        none, 50, 50⟩) ∧
    FileRecord.folderId ⟨"id1", "50-a.txt", "a.txt",
      "application/octet-stream", 2, "uploads/50-a.txt", "shop-1",
      none, 50, 50⟩ = none :=
  ⟨by decide,
    (empty_folder_field_is_root ⟨[], []⟩ [] "shop-1"
      (some ⟨"a.txt", "", 2, [7, 8]⟩) 50 "id1" true none none).2.2.2
      _ (by decide)⟩

/-- C9: a successful move of a tenant's file changes only the folder
reference and the last-updated timestamp.  The move is successful when
the file is the tenant's and the (coerced) target satisfies the
`File_folderId_fkey` constraint — it is root or an existing folder
(hypothesis `hfk`; otherwise Prisma throws P2003 and nothing changes).
Then the action reports success,
the blob store is returned untouched (the handler performs no filesystem
call, so the stored bytes under the unchanged path are unchanged), the
folder table is unchanged, the file table is exactly the original with
the addressed record's `folderId` set to the coerced target and
`updatedAt` set to the clock — and every record of the resulting table
agrees with a record of the original on id, filename, original name,
MIME type, size, storage path, tenant and creation timestamp. -/
theorem move_frame
    (st : Store) (bs : BlobStore) (shop fileId : String)
    (folderField : Option String) (now : Nat) (f : FileRecord)
    (hid : fileId ≠ "")
    (hfind : findFirstFile st.files fileId shop = some f)
    (hfk : folderExistsFor st.folders (coerceFolderId folderField) = true) :
    (moveFileAction st bs shop (some fileId) folderField now).2.2 =
      .success none ∧
    (moveFileAction st bs shop (some fileId) folderField now).2.1 = bs ∧
    (moveFileAction st bs shop (some fileId) folderField now).1.folders =
      st.folders ∧
    (moveFileAction st bs shop (some fileId) folderField now).1.files =
      st.files.map (fun g => if g.id == fileId
        then { g with folderId := coerceFolderId folderField, updatedAt := now }
        else g) ∧
    ∀ g ∈ (moveFileAction st bs shop (some fileId) folderField now).1.files,
      ∃ g0 ∈ st.files, g.id = g0.id ∧ g.filename = g0.filename ∧
        g.originalName = g0.originalName ∧ g.mimeType = g0.mimeType ∧
        g.size = g0.size ∧ g.path = g0.path ∧ g.shop = g0.shop ∧
        g.createdAt = g0.createdAt := by
  have hblank : isBlank (some fileId) = false := by simp [isBlank, hid]
  have hupd := fileUpdateFolder_of_found st.folders (coerceFolderId folderField)
    now hfind hfk
  refine ⟨?_, ?_, ?_, ?_, ?_⟩
  · simp [moveFileAction, hblank, hfind, hupd]
  · simp [moveFileAction, hblank, hfind, hupd]
  · simp [moveFileAction, hblank, hfind, hupd]
  · simp [moveFileAction, hblank, hfind, hupd]
  · intro g hg
    simp only [moveFileAction, hblank, Bool.false_eq_true, ite_false,
      Option.getD_some, hfind, hupd] at hg
    obtain ⟨g0, hg0, rfl⟩ := List.mem_map.mp hg
    refine ⟨g0, hg0, ?_⟩
    by_cases h : g0.id == fileId <;> simp [h]

/-- C9 (witness): a concrete move of `shop-1`'s only file into the
existing folder `fA`; the frame property holds there. -/
theorem move_frame_witness :
    ("f1" : String) ≠ "" ∧
    findFirstFile [⟨"f1", "50-a.txt", "a.txt", "text/plain", 2,
        "uploads/50-a.txt", "shop-1", none, 50, 50⟩] "f1" "shop-1" =
      some ⟨"f1", "50-a.txt", "a.txt", "text/plain", 2,
        "uploads/50-a.txt", "shop-1", none, 50, 50⟩ ∧
    folderExistsFor [⟨"fA", "Docs", "shop-1", 0, 0⟩]
      (coerceFolderId (some "fA")) = true ∧
    (moveFileAction
        ⟨[⟨"f1", "50-a.txt", "a.txt", "text/plain", 2,
          "uploads/50-a.txt", "shop-1", none, 50, 50⟩],
          [⟨"fA", "Docs", "shop-1", 0, 0⟩]⟩
        [("uploads/50-a.txt", [7, 8])] "shop-1" (some "f1") (some "fA")
        99).2.2 = .success none ∧
    (moveFileAction
        ⟨[⟨"f1", "50-a.txt", "a.txt", "text/plain", 2,
          "uploads/50-a.txt", "shop-1", none, 50, 50⟩],
          [⟨"fA", "Docs", "shop-1", 0, 0⟩]⟩
        [("uploads/50-a.txt", [7, 8])] "shop-1" (some "f1") (some "fA")
        99).2.1 = [("uploads/50-a.txt", [7, 8])] :=
  ⟨by decide, by decide, by decide,
    (move_frame
      ⟨[⟨"f1", "50-a.txt", "a.txt", "text/plain", 2,
        "uploads/50-a.txt", "shop-1", none, 50, 50⟩],
        [⟨"fA", "Docs", "shop-1", 0, 0⟩]⟩
      [("uploads/50-a.txt", [7, 8])] "shop-1" "f1" (some "fA") 99
      ⟨"f1", "50-a.txt", "a.txt", "text/plain", 2,
        "uploads/50-a.txt", "shop-1", none, 50, 50⟩
      (by decide) (by decide) (by decide)).1,
    (move_frame
      ⟨[⟨"f1", "50-a.txt", "a.txt", "text/plain", 2,
        "uploads/50-a.txt", "shop-1", none, 50, 50⟩],
        [⟨"fA", "Docs", "shop-1", 0, 0⟩]⟩
      [("uploads/50-a.txt", [7, 8])] "shop-1" "f1" (some "fA") 99
      ⟨"f1", "50-a.txt", "a.txt", "text/plain", 2,
        "uploads/50-a.txt", "shop-1", none, 50, 50⟩
      (by decide) (by decide) (by decide)).2.1⟩

theorem pairwise_id_inj {l : List FileRecord}
    (h : l.Pairwise (fun a b => a.id ≠ b.id)) :
    ∀ f ∈ l, ∀ g ∈ l, f.id = g.id → f = g := by
  induction l with
  | nil => intro f hf; cases hf
  | cons x xs ih =>
    intro f hf g hg heq
    rcases List.mem_cons.mp hf with rfl | hf' <;>
      rcases List.mem_cons.mp hg with rfl | hg'
    · rfl
    · exact absurd heq ((List.pairwise_cons.mp h).1 g hg')
    · exact absurd heq.symm ((List.pairwise_cons.mp h).1 f hf')
    · exact ih (List.pairwise_cons.mp h).2 f hf' g hg' heq

/-- C6: deleting a folder of the requesting tenant cascades at the
metadata layer.  The action reports success, no `File` record of the
resulting store references the deleted folder identifier, and — file ids
being unique (`id` is the primary key) — every file that referenced the
folder is gone: a tenant-scoped `getFile` on its id finds nothing, for
any tenant. -/
theorem delete_folder_cascade
    (st : Store) (bs : BlobStore) (shop folderId : String)
    (fo : FolderRecord) (unlinkOk : String → Bool)
    (hid : folderId ≠ "")
    (hfind : findFirstFolder st.folders folderId shop = some fo)
    (huniq : st.files.Pairwise (fun a b => a.id ≠ b.id)) :
    (deleteFolderAction st bs shop (some folderId) unlinkOk).2.2 =
      .success none ∧
    (∀ g ∈ (deleteFolderAction st bs shop (some folderId) unlinkOk).1.files,
      g.folderId ≠ some folderId) ∧
    (∀ f ∈ st.files, f.folderId = some folderId → ∀ tenant,
      findFirstFile
        (deleteFolderAction st bs shop (some folderId) unlinkOk).1.files
        f.id tenant = none) := by
  have hblank : isBlank (some folderId) = false := by simp [isBlank, hid]
  have hstore : (deleteFolderAction st bs shop (some folderId) unlinkOk).1 =
      folderDeleteCascade st folderId := by
    simp [deleteFolderAction, hblank, hfind]
  have hres : (deleteFolderAction st bs shop (some folderId) unlinkOk).2.2 =
      .success none := by
    simp [deleteFolderAction, hblank, hfind]
  refine ⟨hres, ?_, ?_⟩
  · intro g hg
    rw [hstore] at hg
    have hp := List.of_mem_filter hg
    simpa using hp
  · intro f hf hfold tenant
    rw [hstore]
    rw [findFirstFile, List.find?_eq_none]
    intro x hx
    have hxmem := List.mem_of_mem_filter hx
    have hxp := List.of_mem_filter hx
    simp only [Bool.not_eq_eq_eq_not, Bool.not_true, beq_eq_false_iff_ne,
      ne_eq] at hxp
    simp only [Bool.and_eq_true, beq_iff_eq, not_and]
    intro hxid
    exfalso
    exact hxp (pairwise_id_inj huniq x hxmem f hf hxid ▸ hfold)

/-- C6 (witness): tenant `shop-1` has folder `fA` with two files in it
and one file at root; deleting `fA` succeeds, and `getFile` on the two
cascaded files finds nothing. -/
theorem delete_folder_cascade_witness :
    ("fA" : String) ≠ "" ∧
    findFirstFolder [⟨"fA", "Docs", "shop-1", 0, 0⟩] "fA" "shop-1" =
      some ⟨"fA", "Docs", "shop-1", 0, 0⟩ ∧
    List.Pairwise (fun (a b : FileRecord) => a.id ≠ b.id)
      [⟨"f1", "k1", "n1", "t", 1, "p1", "shop-1", some "fA", 1, 1⟩,
        ⟨"f2", "k2", "n2", "t", 1, "p2", "shop-1", some "fA", 2, 2⟩,
        ⟨"f3", "k3", "n3", "t", 1, "p3", "shop-1", none, 3, 3⟩] ∧
    (deleteFolderAction
        ⟨[⟨"f1", "k1", "n1", "t", 1, "p1", "shop-1", some "fA", 1, 1⟩,
            ⟨"f2", "k2", "n2", "t", 1, "p2", "shop-1", some "fA", 2, 2⟩,
            ⟨"f3", "k3", "n3", "t", 1, "p3", "shop-1", none, 3, 3⟩],
          [⟨"fA", "Docs", "shop-1", 0, 0⟩]⟩
        [] "shop-1" (some "fA") (fun _ => true)).2.2 = .success none ∧
    findFirstFile
      (deleteFolderAction
        ⟨[⟨"f1", "k1", "n1", "t", 1, "p1", "shop-1", some "fA", 1, 1⟩,
            ⟨"f2", "k2", "n2", "t", 1, "p2", "shop-1", some "fA", 2, 2⟩,
            ⟨"f3", "k3", "n3", "t", 1, "p3", "shop-1", none, 3, 3⟩],
          [⟨"fA", "Docs", "shop-1", 0, 0⟩]⟩
        [] "shop-1" (some "fA") (fun _ => true)).1.files "f1" "shop-1" =
      none :=
  ⟨by decide, by decide, by decide,
    (delete_folder_cascade
      ⟨[⟨"f1", "k1", "n1", "t", 1, "p1", "shop-1", some "fA", 1, 1⟩,
          ⟨"f2", "k2", "n2", "t", 1, "p2", "shop-1", some "fA", 2, 2⟩,
          ⟨"f3", "k3", "n3", "t", 1, "p3", "shop-1", none, 3, 3⟩],
        [⟨"fA", "Docs", "shop-1", 0, 0⟩]⟩
      [] "shop-1" "fA" ⟨"fA", "Docs", "shop-1", 0, 0⟩ (fun _ => true)
      (by decide) (by decide) (by decide)).1,
    (delete_folder_cascade
      ⟨[⟨"f1", "k1", "n1", "t", 1, "p1", "shop-1", some "fA", 1, 1⟩,
          ⟨"f2", "k2", "n2", "t", 1, "p2", "shop-1", some "fA", 2, 2⟩,
          ⟨"f3", "k3", "n3", "t", 1, "p3", "shop-1", none, 3, 3⟩],
        [⟨"fA", "Docs", "shop-1", 0, 0⟩]⟩
      [] "shop-1" "fA" ⟨"fA", "Docs", "shop-1", 0, 0⟩ (fun _ => true)
      (by decide) (by decide) (by decide)).2.2
      ⟨"f1", "k1", "n1", "t", 1, "p1", "shop-1", some "fA", 1, 1⟩
      (by decide) (by decide) "shop-1"⟩

theorem deleteFileBlob_ok (bs : BlobStore) (p : String) :
    deleteFileBlob bs p true =
      .ok (if existsSyncB bs p then unlinkB bs p else bs) := by
  rw [deleteFileBlob]
  split <;> rfl

/-- C8: per-item independence of bulk delete.  For a request whose two
tagged identifiers strip to an existing file `f` of the tenant and to an
identifier `ghost` carried by no record — in either order — the handler
deletes `f`'s metadata record, silently skips the absent item, and
reports overall success. -/
theorem bulk_delete_item_independence
    (st : Store) (bs : BlobStore) (shop ghost i1 i2 : String)
    (ids : List String) (f : FileRecord) (unlinkOk : String → Bool)
    (h1p : strStartsWith i1 "file-" = true)
    (h1f : strStartsWith i1 "folder-" = false)
    (h1s : replaceOnce i1 "file-" = f.id)
    (h2p : strStartsWith i2 "file-" = true)
    (h2f : strStartsWith i2 "folder-" = false)
    (h2s : replaceOnce i2 "file-" = ghost)
    (hfind : findFirstFile st.files f.id shop = some f)
    (hunlink : unlinkOk f.path = true)
    (hghost : ∀ r ∈ st.files, r.id ≠ ghost)
    (horder : ids = [i1, i2] ∨ ids = [i2, i1]) :
    (bulkDeleteAction st bs shop (some ids) unlinkOk).2.2 = .success none ∧
    (bulkDeleteAction st bs shop (some ids) unlinkOk).1.files =
      fileDeleteById st.files f.id ∧
    ∀ r ∈ (bulkDeleteAction st bs shop (some ids) unlinkOk).1.files,
      r.id ≠ f.id := by
  have hghostNone : ∀ fs : List FileRecord, (∀ r ∈ fs, r ∈ st.files) →
      findFirstFile fs ghost shop = none := by
    intro fs hsub
    rw [findFirstFile, List.find?_eq_none]
    intro x hx
    simp only [Bool.and_eq_true, beq_iff_eq, not_and]
    intro hxid
    exact absurd hxid (hghost x (hsub x hx))
  have hstepv : ∀ b : BlobStore,
      bulkDeleteFileStep shop unlinkOk (st, b) i1 =
        ({ st with files := fileDeleteById st.files f.id },
          if existsSyncB b f.path then unlinkB b f.path else b) := by
    intro b
    rw [bulkDeleteFileStep]
    simp only [h1s, hfind, hunlink, deleteFileBlob_ok]
  have hdelsub : ∀ r ∈ fileDeleteById st.files f.id, r ∈ st.files := by
    intro r hr
    exact List.mem_of_mem_filter hr
  have hstepg1 : ∀ b : BlobStore,
      bulkDeleteFileStep shop unlinkOk (st, b) i2 = (st, b) := by
    intro b
    rw [bulkDeleteFileStep]
    simp only [h2s, hghostNone st.files (fun r hr => hr)]
  have hstepg2 : ∀ b : BlobStore,
      bulkDeleteFileStep shop unlinkOk
          ({ st with files := fileDeleteById st.files f.id }, b) i2 =
        ({ st with files := fileDeleteById st.files f.id }, b) := by
    intro b
    rw [bulkDeleteFileStep]
    simp only [h2s, hghostNone (fileDeleteById st.files f.id) hdelsub]
  have hmain : (bulkDeleteAction st bs shop (some ids) unlinkOk).2.2 =
      .success none ∧
      (bulkDeleteAction st bs shop (some ids) unlinkOk).1.files =
        fileDeleteById st.files f.id := by
    rcases horder with rfl | rfl
    · simp only [bulkDeleteAction, List.filter, h1p, h1f, h2p, h2f,
        List.foldl, hstepv bs]
      rw [hstepg2]
      exact ⟨trivial, rfl⟩
    · simp only [bulkDeleteAction, List.filter, h1p, h1f, h2p, h2f,
        List.foldl]
      rw [hstepg1, hstepv bs]
      exact ⟨trivial, rfl⟩
  refine ⟨hmain.1, hmain.2, ?_⟩
  intro r hr
  rw [hmain.2] at hr
  have := List.of_mem_filter hr
  simpa using this

/-- C8 (witness): tenant `shop-1` bulk-deletes `file-f1` (existing) and
`file-gone` (absent): `f1` is removed and the action reports success. -/
theorem bulk_delete_item_independence_witness :
    strStartsWith "file-f1" "file-" = true ∧
    strStartsWith "file-gone" "file-" = true ∧
    replaceOnce "file-f1" "file-" = "f1" ∧
    replaceOnce "file-gone" "file-" = "gone" ∧
    (bulkDeleteAction
        ⟨[⟨"f1", "50-a.txt", "a.txt", "text/plain", 2,
          "uploads/50-a.txt", "shop-1", none, 50, 50⟩], []⟩
        [("uploads/50-a.txt", [7, 8])] "shop-1"
        (some ["file-f1", "file-gone"]) (fun _ => true)).2.2 =
      .success none ∧
    (bulkDeleteAction
        ⟨[⟨"f1", "50-a.txt", "a.txt", "text/plain", 2,
          "uploads/50-a.txt", "shop-1", none, 50, 50⟩], []⟩
        [("uploads/50-a.txt", [7, 8])] "shop-1"
        (some ["file-f1", "file-gone"]) (fun _ => true)).1.files =
      fileDeleteById [⟨"f1", "50-a.txt", "a.txt", "text/plain", 2,
        "uploads/50-a.txt", "shop-1", none, 50, 50⟩] "f1" :=
  ⟨by decide, by decide, by decide, by decide,
    (bulk_delete_item_independence
      ⟨[⟨"f1", "50-a.txt", "a.txt", "text/plain", 2,
        "uploads/50-a.txt", "shop-1", none, 50, 50⟩], []⟩
      [("uploads/50-a.txt", [7, 8])] "shop-1" "gone" "file-f1" "file-gone"
      ["file-f1", "file-gone"]
      ⟨"f1", "50-a.txt", "a.txt", "text/plain", 2,
        "uploads/50-a.txt", "shop-1", none, 50, 50⟩
      (fun _ => true) (by decide) (by decide) (by decide) (by decide)
      (by decide) (by decide) (by decide) (by decide) (by decide)
      (Or.inl rfl)).1,
    (bulk_delete_item_independence
      ⟨[⟨"f1", "50-a.txt", "a.txt", "text/plain", 2,
        "uploads/50-a.txt", "shop-1", none, 50, 50⟩], []⟩
      [("uploads/50-a.txt", [7, 8])] "shop-1" "gone" "file-f1" "file-gone"
      ["file-f1", "file-gone"]
      ⟨"f1", "50-a.txt", "a.txt", "text/plain", 2,
        "uploads/50-a.txt", "shop-1", none, 50, 50⟩
      (fun _ => true) (by decide) (by decide) (by decide) (by decide)
      (by decide) (by decide) (by decide) (by decide) (by decide)
      (Or.inl rfl)).2.1⟩

end DigitalDownload
